import Mathlib

/-!
Shallow embedding of the OpenMPRDB example client (index.js).

Conventions of the embedding:
* JS epoch values: `new Date(x).getTime()` returns integer milliseconds, modelled
  as `Int`.  A `BanEntry.created` field holds that millisecond value.
* The JS number `getTime() / 1000` is an exact value (no rounding happens for the
  magnitudes involved), modelled as `ℚ`.  JS template-literal rendering of a
  number (`${"$"}{t}`) is modelled by `toString : ℚ → String`; like the JS
  rendering it is deterministic and injective, which is all the dedup key needs.
* The `submits` JSON object is modelled as an ordered association list
  `List (String × Entry)`; property read is `getKey`, property write is `objSet`
  (overwrite in place, append when fresh — JS object semantics).
* File writes (`fs.writeFile`) are modelled as an explicit trace
  `List (String × String)` of (file name, content) pairs returned next to the
  ordinary result, so that "mutates no local persisted state" is the statement
  that a flow's trace is empty.
* Remote responses (`JSON.parse` of the body) are modelled by `Response`; the
  network itself is a parameter (one response per attempt index).
* `uuidv4()` and `pgpSignMessage` are external effects, passed in as functions
  (`gen : ℕ → String`, `sign : String → String`).
-/

namespace OpenMPRDB

/-- A banned-players.json entry: `ban.uuid`, `ban.created` (epoch milliseconds as
produced by `new Date(ban.created).getTime()`), `ban.reason`. -/
structure BanEntry where
  uuid : String
  created : Int
  reason : String
deriving DecidableEq

/-- Parsed remote response body: `res.status` and `res.uuid`. -/
structure Response where
  status : Bool
  uuid : String
deriving DecidableEq

/-- A ledger value `{local: ..., remote: ...}` stored in submits.json.
`localID` models the JS field `local`; `remote` models `remote`, which is
`undefined` (here `none`) until a remote id is assigned. -/
structure Entry where
  localID : String
  remote : Option String
deriving DecidableEq

/-- The in-memory submits.json object: an ordered association list. -/
abbrev Submits := List (String × Entry)

/-- One `fs.writeFile(name, content)` effect. -/
abbrev FileWrite := String × String

/-- The per-submission `data` object built by `sync` (and extended by
`finalizeSubmits` with `submit_id` after a successful response). -/
structure SubmitData where
  uuid : String
  timestamp : ℚ
  player_uuid : String
  points : Int
  comment : String
  submit_id : Option String
deriving DecidableEq

/-- JS object property read `submits[k]`: first binding wins. -/
def getKey : Submits → String → Option Entry
  | [], _ => none
  | (k', v) :: rest, k => if k' = k then some v else getKey rest k

/-- JS object property write `submits[k] = v`: overwrite in place if the key is
present, append otherwise. -/
def objSet : Submits → String → Entry → Submits
  | [], k, v => [(k, v)]
  | (k', v') :: rest, k, v => if k' = k then (k, v) :: rest else (k', v') :: objSet rest k v

/-- Timestamp value used by `sync` and `prepareList`:
`new Date(ban.created).getTime() / 1000`.  Note: no `Math.floor` here. -/
def tsOfBan (b : BanEntry) : ℚ := (b.created : ℚ) / 1000

/-- Composite dedup key computed in `prepareList`:
the template literal with the ban's uuid and `getTime() / 1000`. -/
def banKey (b : BanEntry) : String := b.uuid ++ ":" ++ toString (tsOfBan b)

/-- The `timestamp()` helper: `Math.floor(new Date().getTime() / 1000)`,
parameterised by the current epoch-millisecond clock value. -/
def timestamp (nowMs : Int) : Int := ⌊(nowMs : ℚ) / 1000⌋

/-- The `obj2kv` canonical encoder: for each field, append a line
made of the name, a colon-space separator, the value and a newline, in
iteration order.  The ordered object is modelled as a list of
(name, rendered value) pairs. -/
def obj2kv (obj : List (String × String)) : String :=
  obj.foldl (fun kv p => kv ++ p.1 ++ ": " ++ p.2 ++ "\n") ""

/-- Key under which `updateSubmits` stores a record: the template literal with
`data.player_uuid` and `data.timestamp`. -/
def submitKey (d : SubmitData) : String := d.player_uuid ++ ":" ++ toString d.timestamp

/-- JSON.stringify of one ledger value (an `undefined` remote field is dropped,
as JSON.stringify does). -/
def serializeEntry (e : Entry) : String :=
  "\x7b\"local\":\"" ++ e.localID ++ "\"" ++
    (match e.remote with
      | some r => ",\"remote\":\"" ++ r ++ "\""
      | none => "") ++ "\x7d"

/-- JSON.stringify of the whole submits object, in property order. -/
def serializeSubmits (s : Submits) : String :=
  "\x7b" ++ String.intercalate "," (s.map fun p => "\"" ++ p.1 ++ "\":" ++ serializeEntry p.2) ++ "\x7d"

/-- The `updateSubmits(data, submits)` function: store
`{local: data.uuid, remote: data.submit_id}` under the composite key, then
write the serialized map to submits.json.  Returns the new map and the
file-write trace. -/
def updateSubmits (d : SubmitData) (submits : Submits) : Submits × List FileWrite :=
  let s' := objSet submits (submitKey d) ⟨d.uuid, d.submit_id⟩
  (s', [("submits.json", serializeSubmits s')])

/-- The reconciliation step of `finalizeSubmits(data, submits)` after the remote
response has been parsed: on `res.status` set `data.submit_id = res.uuid` and
call `updateSubmits`; otherwise do nothing.  (The signing and the network call
leave the local state untouched and are value-irrelevant here.) -/
def finalizeSubmits (d : SubmitData) (submits : Submits) (res : Response) :
    Submits × List FileWrite :=
  if res.status then updateSubmits { d with submit_id := some res.uuid } submits
  else (submits, [])

/-- The message text signed for one submission: `obj2kv` over the data fields in
insertion order (`submit_id` exists only once set). -/
def submitMessage (d : SubmitData) : String :=
  obj2kv ([("uuid", d.uuid), ("timestamp", toString d.timestamp),
    ("player_uuid", d.player_uuid), ("points", toString d.points),
    ("comment", d.comment)] ++
    (match d.submit_id with
      | some sid => [("submit_id", sid)]
      | none => []))

/-- The `prepareList(banlist, submits)` diff: push each ban whose composite key
has no (truthy) entry in `submits`, preserving banlist order. -/
def prepareList (banlist : List BanEntry) (submits : Submits) : List BanEntry :=
  banlist.foldl
    (fun list ban => if getKey submits (banKey ban) = none then list ++ [ban] else list) []

/-- The `data` object `sync` builds for one ban: fresh uuid `g`, timestamp
`getTime() / 1000`, the ban's player uuid, fixed points `-1`, the ban's reason. -/
def banData (g : String) (b : BanEntry) : SubmitData :=
  { uuid := g, timestamp := tsOfBan b, player_uuid := b.uuid, points := -1,
    comment := b.reason, submit_id := none }

/-- The sequential submission loop of `sync`: one `finalizeSubmits` per work-list
entry (the fixed `syncWait` delay has no state effect), threading the mutated
`submits` map.  `resp i` is the parsed remote response to attempt `i`, `gen i`
the `uuidv4()` value drawn for it. -/
def syncLoop (resp : ℕ → Response) (gen : ℕ → String) :
    List BanEntry → Submits → ℕ → Submits
  | [], s, _ => s
  | b :: rest, s, i =>
      syncLoop resp gen rest (finalizeSubmits (banData (gen i) b) s (resp i)).1 (i + 1)

/-- One whole `sync()` run over a loaded banlist and submits map: diff with
`prepareList`, then the submission loop.  Returns the final submits map. -/
def sync (banlist : List BanEntry) (submits : Submits) (resp : ℕ → Response)
    (gen : ℕ → String) : Submits :=
  syncLoop resp gen (prepareList banlist submits) submits 0

/-- Keys of the work-list entries whose remote response reported success,
attempt indices starting at `i`.  Derived bookkeeping for stating which entries
a run records. -/
def succKeys (resp : ℕ → Response) : List BanEntry → ℕ → List String
  | [], _ => []
  | b :: rest, i => (if (resp i).status then [banKey b] else []) ++ succKeys resp rest (i + 1)

/-- The CLI comment-accumulation loop shared by the `manual` and `revoke` cases:
start from the empty string and append each word followed by one space. -/
def commentLoop (ws : List String) : String :=
  ws.foldl (fun c w => c ++ w ++ " ") ""

/-- Comment built by the `manual` CLI case from `argv` (already sliced past
`node index.js`): words from index 3 on. -/
def manualArgComment (argv : List String) : String := commentLoop (argv.drop 3)

/-- Comment built by the `revoke` CLI case: words from index 2 on. -/
def revokeArgComment (argv : List String) : String := commentLoop (argv.drop 2)

/-- The message text `manual(uuid, points, comment)` encodes and signs.  The
`points` argument is the raw CLI string `argv[2]`, interpolated untouched. -/
def manualMessage (uuid points comment : String) (nowMs : Int) (g : String) : String :=
  obj2kv [("uuid", g), ("timestamp", toString (timestamp nowMs)),
    ("player_uuid", uuid), ("points", points), ("comment", comment)]

/-- A PUT /v1/submit/new call carrying a signed body. -/
structure SubmitCall where
  body : String
deriving DecidableEq

/-- The `manual` flow: sign the encoded message and call `apiPutSubmit`.  No
validation of `points` happens (the source carries a `TODO verify input`), and
no file is written. -/
def manual (uuid points comment : String) (nowMs : Int) (g : String)
    (sign : String → String) : SubmitCall × List FileWrite :=
  (⟨sign (manualMessage uuid points comment nowMs g)⟩, [])

/-- The acceptance region the spec prescribes for a manual point value.
Modelled from the spec: accept exactly the values in [-1, -0.1] ∪ [0.1, 1]. -/
def specValidPoints (p : ℚ) : Prop :=
  (-1 ≤ p ∧ p ≤ -(1 / 10)) ∨ (1 / 10 ≤ p ∧ p ≤ 1)

instance (p : ℚ) : Decidable (specValidPoints p) := by
  unfold specValidPoints
  infer_instance

/-- A DELETE /v1/submit/uuid/:id call carrying a signed body. -/
structure RevokeCall where
  path : String
  body : String
deriving DecidableEq

/-- The `apiRevokeSubmit(submit_uuid, data)` helper: issue the DELETE request and
hand back the transport outcome (`Except.error` models a rejected request
promise, `Except.ok` the raw response body).  It writes no file. -/
def apiRevokeSubmit (submit_uuid data : String) (outcome : Except Unit String) :
    (RevokeCall × Except Unit String) × List FileWrite :=
  ((⟨"/v1/submit/uuid/" ++ submit_uuid, data⟩, outcome), [])

/-- The `revoke(submit_uuid, comment)` flow: sign the two-field message and call
`apiRevokeSubmit`.  No file is written on any outcome. -/
def revoke (submit_uuid comment : String) (nowMs : Int) (sign : String → String)
    (outcome : Except Unit String) : (RevokeCall × Except Unit String) × List FileWrite :=
  apiRevokeSubmit submit_uuid
    (sign ("timestamp: " ++ toString (timestamp nowMs) ++ "\ncomment: " ++ comment))
    outcome

/-- The write behaviour of `apiRegister`: persist the remote-assigned server
uuid exactly when the response reports success (for contrast with `revoke`,
which never writes). -/
def apiRegister (res : Response) : List FileWrite :=
  if res.status then [("server_uuid", res.uuid)] else []

/-! Helper lemmas about the map operations and the loops. -/

theorem getKey_objSet (s : Submits) (k₀ : String) (v : Entry) (k : String) :
    getKey (objSet s k₀ v) k = if k = k₀ then some v else getKey s k := by
  induction s with
  | nil =>
      by_cases h : k = k₀
      · simp [objSet, getKey, h]
      · simp [objSet, getKey, h, Ne.symm h]
  | cons p rest ih =>
      obtain ⟨k₁, v₁⟩ := p
      by_cases h₁ : k₁ = k₀
      · subst h₁
        by_cases h : k = k₁
        · simp [objSet, getKey, h]
        · simp [objSet, getKey, h, Ne.symm h]
      · by_cases h : k₁ = k
        · subst h
          simp [objSet, getKey, h₁, Ne.symm h₁]
        · simp [objSet, getKey, h₁, h, ih]

theorem prepareList_eq_filter (bl : List BanEntry) (s : Submits) :
    prepareList bl s = bl.filter fun b => decide (getKey s (banKey b) = none) := by
  have h : ∀ acc, bl.foldl
      (fun list ban => if getKey s (banKey ban) = none then list ++ [ban] else list) acc
      = acc ++ bl.filter fun b => decide (getKey s (banKey b) = none) := by
    induction bl with
    | nil => intro acc; simp
    | cons b rest ih =>
        intro acc
        by_cases hb : getKey s (banKey b) = none
        · simp [List.foldl_cons, hb, ih, List.filter_cons]
        · simp [List.foldl_cons, hb, ih, List.filter_cons]
  simpa [prepareList] using h []

theorem mem_prepareList_getKey {b : BanEntry} {bl : List BanEntry} {s : Submits}
    (h : b ∈ prepareList bl s) : getKey s (banKey b) = none := by
  rw [prepareList_eq_filter] at h
  simpa using List.of_mem_filter h

theorem prepareList_sublist (bl : List BanEntry) (s : Submits) :
    (prepareList bl s).Sublist bl := by
  rw [prepareList_eq_filter]
  exact List.filter_sublist bl

theorem submitKey_banData (g : String) (b : BanEntry) (u : Option String) :
    submitKey { banData g b with submit_id := u } = banKey b := rfl

theorem getKey_syncLoop (resp : ℕ → Response) (gen : ℕ → String) :
    ∀ (l : List BanEntry) (s : Submits) (i : ℕ) (k : String),
      getKey (syncLoop resp gen l s i) k ≠ none
        ↔ getKey s k ≠ none ∨ k ∈ succKeys resp l i := by
  intro l
  induction l with
  | nil => intro s i k; simp [syncLoop, succKeys]
  | cons b rest ih =>
      intro s i k
      have hstep : syncLoop resp gen (b :: rest) s i
          = syncLoop resp gen rest (finalizeSubmits (banData (gen i) b) s (resp i)).1 (i + 1) :=
        rfl
      rw [hstep, ih]
      cases hr : (resp i).status
      · simp [finalizeSubmits, hr, succKeys]
      · by_cases hk : k = banKey b
        · subst hk
          simp [finalizeSubmits, hr, updateSubmits, submitKey_banData, getKey_objSet, succKeys]
        · simp [finalizeSubmits, hr, updateSubmits, submitKey_banData, getKey_objSet, hk, succKeys]

theorem getKey_syncLoop_remote (resp : ℕ → Response) (gen : ℕ → String) :
    ∀ (l : List BanEntry) (s : Submits) (i : ℕ) (k : String) (e : Entry),
      getKey (syncLoop resp gen l s i) k = some e
        → getKey s k = some e ∨ e.remote ≠ none := by
  intro l
  induction l with
  | nil => intro s i k e h; exact Or.inl h
  | cons b rest ih =>
      intro s i k e h
      have hstep : syncLoop resp gen (b :: rest) s i
          = syncLoop resp gen rest (finalizeSubmits (banData (gen i) b) s (resp i)).1 (i + 1) :=
        rfl
      rw [hstep] at h
      rcases ih _ _ _ _ h with h' | h'
      · cases hr : (resp i).status
        · rw [finalizeSubmits, hr] at h'
          simp at h'
          exact Or.inl h'
        · rw [finalizeSubmits, hr] at h'
          simp [updateSubmits, submitKey_banData, getKey_objSet] at h'
          by_cases hk : k = banKey b
          · rw [if_pos hk] at h'
            obtain rfl := Option.some.inj h'
            simp
          · rw [if_neg hk] at h'
            exact Or.inl h'
      · exact Or.inr h'

theorem succKeys_all_success (resp : ℕ → Response) (h : ∀ i, (resp i).status = true) :
    ∀ (l : List BanEntry) (i : ℕ), succKeys resp l i = l.map banKey := by
  intro l
  induction l with
  | nil => intro i; simp [succKeys]
  | cons b rest ih => intro i; simp [succKeys, h, ih]

/-! Theorems settling the claims. -/

/-- C6: for every ordered field mapping, `obj2kv` produces exactly one
`name: value` line (newline terminated) per field, concatenated in the
mapping's iteration order, with the names and values inserted verbatim (no
escaping); it is a total function, so malformed values are encoded as-is. -/
theorem c6_obj2kv_lines (l : List (String × String)) :
    obj2kv l = String.join (l.map fun p => p.1 ++ ": " ++ p.2 ++ "\n") := by
  simp [obj2kv, String.join, List.foldl_map, String.append_assoc]

/-- C7: the work list computed by `prepareList` is exactly the subsequence of
the ban list whose composite keys are absent from the submits map, in the ban
list's native order. -/
theorem c7_prepareList_filter (bl : List BanEntry) (s : Submits) :
    prepareList bl s = (bl.filter fun b => decide (getKey s (banKey b) = none))
      ∧ (prepareList bl s).Sublist bl :=
  ⟨prepareList_eq_filter bl s, prepareList_sublist bl s⟩

/-- C8: the revoke flow writes no local file for any submission id, comment,
clock value, signing function and remote outcome (success, rejection or
transport error), and neither does `apiRevokeSubmit` itself. -/
theorem c8_revoke_no_writes (su c : String) (now : Int) (sign : String → String)
    (d : String) (outcome : Except Unit String) :
    (revoke su c now sign outcome).2 = [] ∧ (apiRevokeSubmit su d outcome).2 = [] :=
  ⟨rfl, rfl⟩

/-- C9: after `updateSubmits`, the map binds the composite key
`player_uuid:timestamp` to exactly the entry with local id `data.uuid` and
remote id `data.submit_id`, and every other key keeps its previous binding
(single-key frame; an existing binding at that key is overwritten,
last write wins). -/
theorem c9_updateSubmits_frame (d : SubmitData) (s : Submits) (k : String) :
    getKey (updateSubmits d s).1 k
      = if k = submitKey d then some ⟨d.uuid, d.submit_id⟩ else getKey s k := by
  simp [updateSubmits, getKey_objSet]

/-- C10: the comment the CLI passes into the signed message for
`manual <uuid> <points> <w1> ... <wn>` and `revoke <id> <w1> ... <wn>` is each
word followed by a single space, concatenated in order — so a trailing space
for n ≥ 1 and the empty string for n = 0. -/
theorem c10_comment_join (u p i : String) (ws ws' : List String) :
    manualArgComment ("manual" :: u :: p :: ws) = String.join (ws.map fun w => w ++ " ")
      ∧ revokeArgComment ("revoke" :: i :: ws') = String.join (ws'.map fun w => w ++ " ") := by
  constructor <;>
    simp [manualArgComment, revokeArgComment, commentLoop, String.join,
      List.foldl_map, String.append_assoc]

/-- C3: reconciliation writes the ledger entry for the record's composite key
with the remote-assigned uuid and persists the new map to submits.json exactly
when the parsed response reports success; on a failing response the map and the
write trace are left completely unchanged. -/
theorem c3_finalize_ledger_update (d : SubmitData) (s : Submits) (r : Response) :
    (finalizeSubmits d s r =
      if r.status then
        (objSet s (submitKey d) ⟨d.uuid, some r.uuid⟩,
          [("submits.json", serializeSubmits (objSet s (submitKey d) ⟨d.uuid, some r.uuid⟩))])
      else (s, []))
    ∧ (if r.status then
        getKey (finalizeSubmits d s r).1 (submitKey d) = some ⟨d.uuid, some r.uuid⟩
      else finalizeSubmits d s r = (s, [])) := by
  cases hr : r.status
  · simp [finalizeSubmits, hr]
  · constructor <;> simp [finalizeSubmits, hr, updateSubmits, submitKey, getKey_objSet]

/-- C1 (counterexample): with a ban list whose two entries share one composite
key and an empty ledger, the first run alone submits that key twice, so the
key is not submitted at most once across the two runs even though every
successful submission records its ledger entry. -/
theorem c1_counterexample :
    ¬ (((prepareList [⟨"A", 1000, "x"⟩, ⟨"A", 1000, "x"⟩] []).map banKey).count
          (banKey ⟨"A", 1000, "x"⟩)
        + ((prepareList [⟨"A", 1000, "x"⟩, ⟨"A", 1000, "x"⟩]
              (sync [⟨"A", 1000, "x"⟩, ⟨"A", 1000, "x"⟩] []
                (fun _ => ⟨true, "R"⟩) (fun _ => "L"))).map banKey).count
            (banKey ⟨"A", 1000, "x"⟩) ≤ 1) := by
  intro h
  have h1 : ((prepareList [(⟨"A", 1000, "x"⟩ : BanEntry), ⟨"A", 1000, "x"⟩] []).map banKey).count
      (banKey ⟨"A", 1000, "x"⟩) = 2 := by
    simp [prepareList, getKey, List.count_cons]
  rw [h1] at h
  omega

/-- C1 (amended): when the ban list's composite keys are pairwise distinct and
every first-run response reports success, each composite key is submitted at
most once across two successive sync runs — every entry recorded during the
first run is excluded by prepareList in the second. -/
theorem c1_sync_twice_at_most_once (banlist : List BanEntry) (s₀ : Submits)
    (resp : ℕ → Response) (gen : ℕ → String)
    (h₁ : (banlist.map banKey).Nodup) (h₂ : ∀ i, (resp i).status = true) (k : String) :
    ((prepareList banlist s₀).map banKey).count k
      + ((prepareList banlist (sync banlist s₀ resp gen)).map banKey).count k ≤ 1 := by
  have hsub₁ : ((prepareList banlist s₀).map banKey).Sublist (banlist.map banKey) :=
    (prepareList_sublist banlist s₀).map banKey
  have hsub₂ : ((prepareList banlist (sync banlist s₀ resp gen)).map banKey).Sublist
      (banlist.map banKey) :=
    (prepareList_sublist banlist (sync banlist s₀ resp gen)).map banKey
  have hc₁ : ((prepareList banlist s₀).map banKey).count k ≤ 1 :=
    le_trans (hsub₁.count_le k) (List.nodup_iff_count_le_one.mp h₁ k)
  have hc₂ : ((prepareList banlist (sync banlist s₀ resp gen)).map banKey).count k ≤ 1 :=
    le_trans (hsub₂.count_le k) (List.nodup_iff_count_le_one.mp h₁ k)
  by_cases hk : k ∈ (prepareList banlist s₀).map banKey
  · have hksucc : k ∈ succKeys resp (prepareList banlist s₀) 0 := by
      rw [succKeys_all_success resp h₂]; exact hk
    have hs : getKey (sync banlist s₀ resp gen) k ≠ none :=
      (getKey_syncLoop resp gen (prepareList banlist s₀) s₀ 0 k).mpr (Or.inr hksucc)
    have hnot : k ∉ (prepareList banlist (sync banlist s₀ resp gen)).map banKey := by
      intro hmem
      obtain ⟨b', hb', hkb'⟩ := List.mem_map.mp hmem
      have habs := mem_prepareList_getKey hb'
      rw [hkb'] at habs
      exact hs habs
    have h0 : ((prepareList banlist (sync banlist s₀ resp gen)).map banKey).count k = 0 :=
      List.count_eq_zero.mpr hnot
    omega
  · have h0 : ((prepareList banlist s₀).map banKey).count k = 0 :=
      List.count_eq_zero.mpr hk
    omega

/-- C1 (witness): a one-entry ban list with an empty ledger and all-success
responses satisfies the hypotheses, and each key is submitted at most once
across the two runs. -/
theorem c1_witness :
    ((([⟨"A", 1000, "x"⟩] : List BanEntry).map banKey).Nodup
        ∧ ∀ i : ℕ, ((fun _ : ℕ => (⟨true, "R"⟩ : Response)) i).status = true)
    ∧ ((prepareList [⟨"A", 1000, "x"⟩] []).map banKey).count "A:1"
        + ((prepareList [⟨"A", 1000, "x"⟩]
              (sync [⟨"A", 1000, "x"⟩] [] (fun _ => ⟨true, "R"⟩)
                (fun _ => "L"))).map banKey).count "A:1" ≤ 1 :=
  ⟨⟨by simp, fun _ => rfl⟩,
    c1_sync_twice_at_most_once [⟨"A", 1000, "x"⟩] [] (fun _ => ⟨true, "R"⟩) (fun _ => "L")
      (by simp) (fun _ => rfl) "A:1"⟩

/-- C4 (counterexample): one attempted submission whose response reports
failure leaves the ledger without an entry for the attempted key, so an entry
does not exist for every attempted (playerUUID, timestamp) pair. -/
theorem c4_counterexample :
    ¬ ((getKey (sync [⟨"A", 1000, "x"⟩] [] (fun _ => ⟨false, ""⟩) (fun _ => "L"))
          (banKey ⟨"A", 1000, "x"⟩) ≠ none)
        ↔ banKey ⟨"A", 1000, "x"⟩
            ∈ (prepareList [⟨"A", 1000, "x"⟩] []).map banKey) := by
  simp [sync, syncLoop, prepareList, finalizeSubmits, getKey]

/-- C4 (amended): after a sync run, an entry exists for a key iff it existed
before the run or some work-list submission with that key reported success;
and any entry the run wrote (one not carried over unchanged) has its remote id
present. -/
theorem c4_ledger_invariant_amended (banlist : List BanEntry) (s₀ : Submits)
    (resp : ℕ → Response) (gen : ℕ → String) (k : String) :
    (getKey (sync banlist s₀ resp gen) k ≠ none
        ↔ getKey s₀ k ≠ none ∨ k ∈ succKeys resp (prepareList banlist s₀) 0)
    ∧ ∀ e : Entry, getKey (sync banlist s₀ resp gen) k = some e
        → getKey s₀ k = some e ∨ e.remote ≠ none :=
  ⟨getKey_syncLoop resp gen (prepareList banlist s₀) s₀ 0 k,
    fun e h => getKey_syncLoop_remote resp gen (prepareList banlist s₀) s₀ 0 k e h⟩

/-- C4 (witness): with an empty ban list the run changes nothing, and the
pre-existing entry is reported as carried over. -/
theorem c4_witness :
    getKey ([("A:1", ⟨"L", some "R"⟩)] : Submits) "A:1" = some ⟨"L", some "R"⟩
      ∨ (⟨"L", some "R"⟩ : Entry).remote ≠ none :=
  (c4_ledger_invariant_amended [] [("A:1", ⟨"L", some "R"⟩)]
      (fun _ => ⟨true, "R"⟩) (fun _ => "L") "A:1").2
    ⟨"L", some "R"⟩ (by simp [sync, syncLoop, prepareList, getKey])

/-- C2: the spec's acceptance region rejects a zero point value, yet the code
performs no validation — the manual flow encodes, signs and submits the
message with `points: 0` verbatim (and writes no file), instead of rejecting
it before signing. -/
theorem c2_manual_points_unvalidated :
    ¬ specValidPoints 0
    ∧ (manual "u" "0" "c" 0 "G" (fun m => m)).1.body
        = "uuid: G\ntimestamp: 0\nplayer_uuid: u\npoints: 0\ncomment: c\n"
    ∧ (manual "u" "0" "c" 0 "G" (fun m => m)).2 = [] := by
  refine ⟨?_, ?_, rfl⟩
  · norm_num [specValidPoints]
  · have ht : timestamp 0 = 0 := by simp [timestamp]
    simp only [manual, manualMessage, ht]
    decide

/-- C5: the two timestamp derivations disagree — the sync path divides the
epoch milliseconds by 1000 without flooring, producing the non-integer 3/2 for
a ban created 1500 ms after the epoch, while the manual path floors the same
instant to 1; so the composite-key timestamps are not comparable across the
two paths. -/
theorem c5_timestamp_mismatch :
    tsOfBan ⟨"A", 1500, "r"⟩ = 3 / 2
    ∧ (¬ ∃ n : ℤ, tsOfBan ⟨"A", 1500, "r"⟩ = (n : ℚ))
    ∧ timestamp 1500 = 1
    ∧ (timestamp 1500 : ℚ) ≠ tsOfBan ⟨"A", 1500, "r"⟩ := by
  have hts : tsOfBan ⟨"A", 1500, "r"⟩ = 3 / 2 := by norm_num [tsOfBan]
  have hfl : timestamp 1500 = 1 := by
    rw [timestamp, Int.floor_eq_iff]
    norm_num
  refine ⟨hts, ?_, hfl, ?_⟩
  · rintro ⟨n, hn⟩
    rw [hts] at hn
    have h2 : ((2 * n : ℤ) : ℚ) = 3 := by push_cast; rw [← hn]; ring
    have h3 : (2 * n : ℤ) = 3 := by exact_mod_cast h2
    omega
  · rw [hts, hfl]
    norm_num

end OpenMPRDB
